import Mathlib

/-!
Shallow embedding of the rancher load-balancer controller core
(`controller/rancher/rancher.go`, first version in the file, plus the
variant in the unnamed source file that adds drain support).  Go structs
become Lean structures, Go `(T, error)` returns become `Except String T`,
Go nil-able pointers become `Option`, and the metadata / certificate /
provider collaborators (interfaces whose implementations are outside this
repository's core) are modelled as a record of functions `Env`.
`sha1` hashing (Go standard library) is modelled as an abstract function
`hashIP` carried in `Env`; no claim depends on the hash value itself.
-/

set_option linter.unusedVariables false

/-- Go `metadata.PortRule`.  Field defaults are the Go zero values, which is
what a Go struct literal leaves for unmentioned fields. `Weight` is a string
in this fork (the code assigns it to `Endpoint.Weight` and compares with
`"0"`). -/
structure PortRule where
  sourcePort : Int := 0
  protocol : String := ""
  hostname : String := ""
  path : String := ""
  selector : String := ""
  service : String := ""
  container : String := ""
  targetPort : Int := 0
  backendName : String := ""
  priority : Int := 0
  weight : String := ""
  region : String := ""
  environment : String := ""
  deriving Repr, DecidableEq

/-- Go `metadata.Container`.  `healthCheck` is the container's health-check
payload, kept opaque (the JSON round-trip helper copies it verbatim). -/
structure Container where
  name : String := ""
  primaryIp : String := ""
  state : String := ""
  hostUUID : String := ""
  environmentUUID : String := ""
  healthCheck : String := ""
  deriving Repr, DecidableEq

/-- Go `metadata.Service`.  `lbPortRules` is `Service.LBConfig.PortRules`
(`GetLBMetadata` is a JSON round-trip that copies the port rules verbatim, so
it is modelled as the identity on this field). -/
structure Service where
  name : String := ""
  stackName : String := ""
  environmentUUID : String := ""
  kind : String := ""
  state : String := ""
  labels : List (String × String) := []
  containers : List Container := []
  externalIps : List String := []
  hostname : String := ""
  links : List String := []
  lbPortRules : List PortRule := []
  healthCheck : String := ""
  deriving Repr, DecidableEq

/-- Go `config.Endpoint`. -/
structure Endpoint where
  name : String := ""
  ip : String := ""
  port : Int := 0
  isCname : Bool := false
  weight : String := ""
  deriving Repr, DecidableEq

/-- Go `config.BackendService`.  The health check is the opaque payload
copied by the JSON round-trip helper (`none` models a nil pointer). -/
structure BackendService where
  uuid : String
  host : String
  path : String
  port : Int
  protocol : String
  ruleComparator : String
  endpoints : List Endpoint
  healthCheck : Option String
  priority : Int
  deriving Repr, DecidableEq

/-- Go `config.FrontendService`. -/
structure FrontendService where
  name : String
  port : Int
  protocol : String
  backendServices : List BackendService
  deriving Repr, DecidableEq

/-- Modelled from the spec: certificates are opaque to the core (the
`config.Certificate` type lives outside the embedded source); only identity
matters, so a certificate is a token. -/
structure Certificate where
  token : String
  deriving Repr, DecidableEq

/-- Go `config.LoadBalancerConfig`.  `certs` may contain `none` entries
because the Go slice holds pointers that are appended unchecked for the
alternate certificates. -/
structure LoadBalancerConfig where
  name : String
  frontendServices : List FrontendService
  certs : List (Option Certificate)
  defaultCert : Option Certificate
  stickinessPolicy : String
  deriving Repr, DecidableEq

/-- Go `LBMetadata` (file `metadatautil.go` part of the package; shown in the
test source file). -/
structure LBMetadata where
  portRules : List PortRule := []
  certs : List String := []
  defaultCert : String := ""
  config : String := ""
  stickinessPolicy : String := ""
  deriving Repr, DecidableEq

/-- ASCII lower-casing of one character, for `eqFold`. -/
def foldChar (c : Char) : Char :=
  if 'A' ≤ c && c ≤ 'Z' then Char.ofNat (c.toNat + 32) else c

/-- Go `strings.EqualFold`, modelled as ASCII-case-insensitive equality (the
states, kinds and host UUIDs compared in this code are ASCII). -/
def eqFold (a b : String) : Bool :=
  a.data.map foldChar == b.data.map foldChar

/-- Go `strings.HasPrefix(s, c)` for a one-character prefix. -/
def hasPrefixCh (s : String) (c : Char) : Bool :=
  match s.data with
  | [] => false
  | d :: _ => d == c

/-- Go `strings.HasSuffix(s, c)` for a one-character suffix. -/
def hasSuffixCh (s : String) (c : Char) : Bool :=
  match s.data.getLast? with
  | none => false
  | some d => d == c

/-- Go `strings.Split(s, c)` for a one-character separator. -/
def splitChAux (c : Char) : List Char → List Char → List String
  | acc, [] => [String.mk acc.reverse]
  | acc, d :: rest =>
    if d == c then String.mk acc.reverse :: splitChAux c [] rest
    else splitChAux c (d :: acc) rest

/-- See `splitChAux`. -/
def splitCh (s : String) (c : Char) : List String :=
  splitChAux c [] s.data

/-- ASCII whitespace, for `trimStr`. -/
def isSpaceCh (c : Char) : Bool :=
  c == ' ' || c == '\t' || c == '\n' || c == '\r'

/-- Go `strings.TrimSpace` (ASCII whitespace). -/
def trimStr (s : String) : String :=
  String.mk (((s.data.dropWhile isSpaceCh).reverse.dropWhile isSpaceCh).reverse)

/-- Byte-wise (here character-wise, the strings are ASCII) lexicographic
comparison, for the modelled sort orders. -/
def ltCh : List Char → List Char → Bool
  | [], [] => false
  | [], _ :: _ => true
  | _ :: _, [] => false
  | a :: as, b :: bs => if a < b then true else if b < a then false else ltCh as bs

/-- See `ltCh`. -/
def strLt (a b : String) : Bool :=
  ltCh a.data b.data

/-- Go `strings.TrimSuffix(s, "\"")` followed by `strings.TrimPrefix(s, "\"")`
as applied to region names. -/
def trimQuotes (s : String) : String :=
  let s := if hasSuffixCh s '"' then s.dropRight 1 else s
  if hasPrefixCh s '"' then s.drop 1 else s

/-- `IsActiveService` (rancher.go): a service is active unless its state
equals one of the inactive states, compared case-insensitively. -/
def IsActiveService (svc : Service) : Bool :=
  !(["inactive", "deactivating", "removed", "removing"].any
      (fun state => eqFold svc.state state))

/-- Protocol constants of the `config` package (outside the embedded source;
values taken from the spec's protocol set). -/
def HTTPSProto : String := "https"

/-- See `HTTPSProto`. -/
def HTTPProto : String := "http"

/-- See `HTTPSProto`. -/
def SNIProto : String := "sni"

/-- Rule comparator constants of the `config` package (outside the embedded
source; values from the spec's comparator set {eq, beg, end}). -/
def EqRuleComparator : String := "eq"

/-- See `EqRuleComparator`. -/
def BegRuleComparator : String := "beg"

/-- See `EqRuleComparator`. -/
def EndRuleComparator : String := "end"

/-- ASCII alphanumeric test, the character class `[A-Za-z0-9]` of the UUID
regular expression in `BuildConfigFromMetadata`. -/
def isAlnum (c : Char) : Bool :=
  (c ≥ 'A' && c ≤ 'Z') || (c ≥ 'a' && c ≤ 'z') || (c ≥ '0' && c ≤ '9')

/-- Character-level worker for `replaceNonAlnumRuns`.  The flag records
whether the previous character was part of a non-alphanumeric run (in which
case further run characters emit nothing). -/
def replaceRunsCore : Bool → List Char → List Char
  | _, [] => []
  | inRun, c :: rest =>
    if isAlnum c then c :: replaceRunsCore false rest
    else if inRun then replaceRunsCore true rest
    else '_' :: replaceRunsCore true rest

/-- Go `reg.ReplaceAllString(s, "_")` for `reg = regexp.Compile("[^A-Za-z0-9]+")`:
every maximal run of non-alphanumeric characters is replaced by a single
underscore. -/
def replaceNonAlnumRuns (s : String) : String :=
  String.mk (replaceRunsCore false s.data)

/-- Association-list lookup, modelling a read from a Go `map[string]T`. -/
def lookupA {α : Type} : List (String × α) → String → Option α
  | [], _ => none
  | p :: rest, k => if p.1 == k then some p.2 else lookupA rest k

/-- Association-list write, modelling `m[k] = v` on a Go map. -/
def setA {α : Type} : List (String × α) → String → α → List (String × α)
  | [], k, v => [(k, v)]
  | p :: rest, k, v => if p.1 == k then (k, v) :: rest else p :: setA rest k v

/-- Insertion step of `sortBy`. -/
def insertBy {α : Type} (le : α → α → Bool) (x : α) : List α → List α
  | [] => [x]
  | y :: ys => if le x y then x :: y :: ys else y :: insertBy le x ys

/-- Insertion sort used to model the `sort.Sort` calls (the `Less` methods of
the `config` package live outside the embedded source; each ordering is
modelled from the spec, see `endpointLE`, `backendLE`, `frontendLE`). -/
def sortBy {α : Type} (le : α → α → Bool) : List α → List α
  | [] => []
  | x :: xs => insertBy le x (sortBy le xs)

/-- Modelled from the spec: `config.Endpoints` sort order — IP ascending,
then port ascending (the `Less` method is not under src/). -/
def endpointLE (a b : Endpoint) : Bool :=
  if strLt a.ip b.ip then true
  else if a.ip == b.ip then decide (a.port ≤ b.port)
  else false

/-- Modelled from the spec: `config.BackendServices` sort order — priority
ascending, ties broken by UUID (the `Less` method is not under src/; no claim
depends on the exact tie-breaking). -/
def backendLE (a b : BackendService) : Bool :=
  if a.priority < b.priority then true
  else if a.priority == b.priority then strLt a.uuid b.uuid || a.uuid == b.uuid
  else false

/-- Modelled from the spec: `config.FrontendServices` sort order — port
ascending (the `Less` method is not under src/). -/
def frontendLE (a b : FrontendService) : Bool :=
  decide (a.port ≤ b.port)

/-- The collaborators of the controller, as one record of functions:
the metadata fetcher interface, the certificate fetcher (which in Go takes
the LB metadata and reads only its certificate names, so it is modelled on
`(certs, defaultCert)`), the provider's `ProcessCustomConfig` hook
(modelled as error-only; the provider is an external collaborator), and the
abstract `hashIP` (Go `crypto/sha1`, outside this repository). -/
structure Env where
  hashIP : String → String
  getService : String → Except String (Option Service)
  getContainer : String → String → Except String Container
  getServices : Except String (List Service)
  getRegionName : Except String String
  getServicesByEnvironment : String → Except String (List Service)
  getServicesByRegionEnvironment : String → String → Except String (List Service)
  fetchCertificates : List String → String → Bool → Except String (List (Option Certificate))
  processCustomConfig : LoadBalancerConfig → String → Except String Unit

/-- `getContainerEndpoint` (rancher.go, first version): only `running` and
`starting` containers yield an endpoint; the returned flag is Go's
`isContingency` (true when a locality preference other than `any` is set and
the container lives on a foreign host). -/
def getContainerEndpoint (hashIP : String → String) (c : Container) (targetPort : Int)
    (selfHostUUID localServicePreference : String) : Option (Endpoint × Bool) :=
  if eqFold c.state "running" || eqFold c.state "starting" then
    let ep : Endpoint := { name := hashIP c.primaryIp, ip := c.primaryIp, port := targetPort }
    if localServicePreference != "any" && !(eqFold c.hostUUID selfHostUUID) then
      some (ep, true)
    else
      some (ep, false)
  else
    none

/-- `getRegularServiceEndpoints` (rancher.go, first version): split container
endpoints into primaries and contingency, fall back to the contingency list
only under `prefer-local` with no primaries. -/
def splitContainerEndpoints (hashIP : String → String) (targetPort : Int)
    (selfHostUUID localServicePreference : String) :
    List Container → List Endpoint × List Endpoint
  | [] => ([], [])
  | c :: rest =>
    let acc := splitContainerEndpoints hashIP targetPort selfHostUUID localServicePreference rest
    match getContainerEndpoint hashIP c targetPort selfHostUUID localServicePreference with
    | none => acc
    | some (ep, true) => (acc.1, ep :: acc.2)
    | some (ep, false) => (ep :: acc.1, acc.2)

/-- See `splitContainerEndpoints`. -/
def getRegularServiceEndpoints (hashIP : String → String) (svc : Service) (targetPort : Int)
    (selfHostUUID localServicePreference : String) : List Endpoint :=
  let split := splitContainerEndpoints hashIP targetPort selfHostUUID localServicePreference svc.containers
  if localServicePreference == "prefer-local" && split.1.length == 0 then split.2
  else split.1

/-- `getExternalServiceEndpoints` (rancher.go): one endpoint per external IP,
plus a CNAME endpoint when a hostname is set. -/
def getExternalServiceEndpoints (hashIP : String → String) (svc : Service)
    (targetPort : Int) : List Endpoint :=
  let eps := svc.externalIps.map
    (fun e => { name := hashIP e, ip := e, port := targetPort : Endpoint })
  if svc.hostname != "" then
    eps ++ [{ name := svc.hostname, ip := svc.hostname, port := targetPort, isCname := true }]
  else eps

/-- Link loop of `getAliasServiceEndpoints` (rancher.go): resolve each link,
skip missing services, concatenate the recursive results. -/
def aliasEndpoints (getSvc : String → Except String (Option Service))
    (resolve : Service → Except String (List Endpoint)) :
    List String → Except String (List Endpoint)
  | [] => .ok []
  | link :: rest =>
    match getSvc link with
    | .error e => .error e
    | .ok none => aliasEndpoints getSvc resolve rest
    | .ok (some service) =>
      match resolve service with
      | .error e => .error e
      | .ok newEps =>
        match aliasEndpoints getSvc resolve rest with
        | .error e => .error e
        | .ok restEps => .ok (newEps ++ restEps)

/-- `getServiceEndpoints` (rancher.go, first version): dispatch on service
kind, then sort.  The Go code recurses through dns-alias links without any
bound (the spec flags this); the `fuel` argument makes the function total and
only affects inputs on which the Go code would not terminate. -/
def getServiceEndpoints (env : Env) :
    Nat → Service → Int → String → String → Except String (List Endpoint)
  | 0, _, _, _, _ => .error "alias recursion limit exceeded"
  | fuel + 1, svc, targetPort, selfHostUUID, pref =>
    let eps :=
      if eqFold svc.kind "externalService" then
        .ok (getExternalServiceEndpoints env.hashIP svc targetPort)
      else if eqFold svc.kind "dnsService" then
        aliasEndpoints env.getService
          (fun s => getServiceEndpoints env fuel s targetPort selfHostUUID pref) svc.links
      else
        .ok (getRegularServiceEndpoints env.hashIP svc targetPort selfHostUUID pref)
    match eps with
    | .error e => .error e
    | .ok eps => .ok (sortBy endpointLE eps)

/-- `getServiceHealthCheck` (rancher.go): the `&svc.HealthCheck == nil` guard
is never true in Go (address of a field), so the health check payload is
copied via the JSON round-trip, modelled as the identity. -/
def getServiceHealthCheck (svc : Service) : Except String (Option String) :=
  .ok (some svc.healthCheck)

/-- `getContainerHealthcheck` (rancher.go): as `getServiceHealthCheck`. -/
def getContainerHealthcheck (c : Container) : Except String (Option String) :=
  .ok (some c.healthCheck)

/-- The hostname/path/comparator block of `BuildConfigFromMetadata`
(rancher.go): non-HTTP-ish protocols clear hostname and path; a hostname of
byte length greater than 2 (Go `len`) starting or ending with `*` is stripped
of that character and sets the comparator.  Returns
`(hostname, path, comparator)`. -/
def isHTTPish (protocol : String) : Bool :=
  eqFold protocol HTTPSProto || eqFold protocol HTTPProto || eqFold protocol SNIProto

/-- See `isHTTPish` for the guard; this is the whole normalization block. -/
def normalizeHostPath (rule : PortRule) : String × String × String :=
  let path := rule.path
  let hostname := rule.hostname
  let cleared := if !(isHTTPish rule.protocol) then ("", "") else (hostname, path)
  let hostname := cleared.1
  let path := cleared.2
  if hostname.utf8ByteSize > 2 then
    if hasPrefixCh hostname '*' then
      (hostname.drop 1, path, EndRuleComparator)
    else if hasSuffixCh hostname '*' then
      (hostname.dropRight 1, path, BegRuleComparator)
    else (hostname, path, EqRuleComparator)
  else (hostname, path, EqRuleComparator)

/-- `pathUUID := fmt.Sprintf("%v_%s_%s", rule.SourcePort, hostname, path)`
with the normalized hostname and path. -/
def rulePathUUID (rule : PortRule) : String :=
  let hpc := normalizeHostPath rule
  toString rule.sourcePort ++ "_" ++ hpc.1 ++ "_" ++ hpc.2.1

/-- The endpoint-merge loop of `BuildConfigFromMetadata` for an existing
backend: each endpoint whose IP is not yet in the backend's IP map is given
the rule's weight and appended; the IP map grows accordingly.  Endpoint
records are shared by pointer in Go, so mutating `ep.Weight` before the
append is modelled by appending an updated copy. -/
def mergeEndpoints (weight : String) :
    List Endpoint → BackendService → List String → BackendService × List String
  | [], backend, epMap => (backend, epMap)
  | ep :: rest, backend, epMap =>
    if epMap.contains ep.ip then
      mergeEndpoints weight rest backend epMap
    else
      mergeEndpoints weight rest
        { backend with endpoints := backend.endpoints ++ [{ ep with weight := weight }] }
        (epMap ++ [ep.ip])

/-- Accumulator for a frontend under construction: Go keeps the backends as
pointers shared with the `allBe` map, so the accumulator stores the backend
keys and the backends are materialized from `allBe` at the end. -/
structure FrontendAcc where
  name : String
  port : Int
  protocol : String
  beKeys : List String
  deriving Repr, DecidableEq

/-- The mutable state of the port-rule loop of `BuildConfigFromMetadata`:
`frontendsMap`, `allBe` and `allEps` (the per-backend IP set, a Go
`map[string]string` with key = value = IP, modelled as the key list). -/
structure BuildState where
  frontends : List (String × FrontendAcc)
  allBe : List (String × BackendService)
  allEps : List (String × List String)
  deriving Repr, DecidableEq

/-- The backend-registration tail of one iteration of the port-rule loop:
compute the normalized hostname/path and the path UUID, then either merge the
endpoints into the existing backend or create a new backend (UUID from
`BackendName`, else the path UUID with non-alphanumeric runs replaced by
underscores), register it under the frontend and record its IP map. -/
def registerRule (st : BuildState) (rule : PortRule) (frontend : FrontendAcc)
    (name : String) (eps : List Endpoint) (hc : Option String) : BuildState :=
  let hpc := normalizeHostPath rule
  let hostname := hpc.1
  let path := hpc.2.1
  let comparator := hpc.2.2
  let pathUUID := rulePathUUID rule
  match lookupA st.allBe pathUUID with
  | some backend =>
    let merged := mergeEndpoints rule.weight eps backend ((lookupA st.allEps pathUUID).getD [])
    { frontends := setA st.frontends name frontend,
      allBe := setA st.allBe pathUUID merged.1,
      allEps := setA st.allEps pathUUID merged.2 }
  | none =>
    let uuid := if rule.backendName == "" then replaceNonAlnumRuns pathUUID else rule.backendName
    let backend : BackendService :=
      { uuid := uuid, host := hostname, path := path, port := rule.targetPort,
        protocol := rule.protocol, ruleComparator := comparator,
        endpoints := eps.map (fun ep => { ep with weight := rule.weight }),
        healthCheck := hc, priority := rule.priority }
    { frontends := setA st.frontends name { frontend with beKeys := frontend.beKeys ++ [pathUUID] },
      allBe := st.allBe ++ [(pathUUID, backend)],
      allEps := st.allEps ++ [(pathUUID, eps.map (fun ep => ep.ip))] }

/-- The endpoint/health-check half of one iteration of the port-rule loop
(rancher.go, first version): a service-link rule fetches the service, skips
it (`ok none`) when missing or inactive, and resolves its endpoints;
otherwise the container rule fetches the container and keeps it only when the
state filter yields an endpoint. -/
def fetchRuleEndpoints (env : Env) (fuel : Nat) (envUUID selfHostUUID pref : String)
    (rule : PortRule) : Except String (Option (List Endpoint × Option String)) :=
  if rule.service != "" then
    match env.getService rule.service with
    | .error e => .error e
    | .ok none => .ok none
    | .ok (some service) =>
      if !(IsActiveService service) then .ok none
      else
        match getServiceEndpoints env fuel service rule.targetPort selfHostUUID pref with
        | .error e => .error e
        | .ok eps =>
          match getServiceHealthCheck service with
          | .error e => .error e
          | .ok hc => .ok (some (eps, hc))
  else
    match env.getContainer envUUID rule.container with
    | .error e => .error e
    | .ok container =>
      match getContainerEndpoint env.hashIP container rule.targetPort selfHostUUID pref with
      | none => .ok none
      | some (ep, _) =>
        match getContainerHealthcheck container with
        | .error e => .error e
        | .ok hc => .ok (some ([ep], hc))

/-- One iteration of the port-rule loop of `BuildConfigFromMetadata`
(rancher.go, first version): rules with source port below 1 are skipped, the
frontend for the source port is fetched or created, then the endpoints are
fetched (skipping the rule if the reference is missing, inactive or
filtered), and the backend is registered. -/
def processPortRule (env : Env) (fuel : Nat) (envUUID selfHostUUID pref : String)
    (st : BuildState) (rule : PortRule) : Except String BuildState :=
  if rule.sourcePort < 1 then .ok st
  else
    let name := toString rule.sourcePort
    let frontend : FrontendAcc :=
      match lookupA st.frontends name with
      | some val => val
      | none => { name := name, port := rule.sourcePort, protocol := rule.protocol, beKeys := [] }
    match fetchRuleEndpoints env fuel envUUID selfHostUUID pref rule with
    | .error e => .error e
    | .ok none => .ok st
    | .ok (some (eps, hc)) => .ok (registerRule st rule frontend name eps hc)

/-- The final per-frontend step of `BuildConfigFromMetadata`: resolve the
backend keys through `allBe` (Go shares the backends by pointer) and sort the
backends. -/
def materializeFrontend (allBe : List (String × BackendService)) (f : FrontendAcc) :
    FrontendService :=
  { name := f.name, port := f.port, protocol := f.protocol,
    backendServices := sortBy backendLE (f.beKeys.filterMap (lookupA allBe)) }

/-- `BuildConfigFromMetadata` (rancher.go, first version).  The `lbMeta ==
nil` branch substitutes an empty metadata value and is dropped (Lean values
are never nil); `regexp.Compile` of the constant pattern cannot fail and is
dropped.  Certificates come from the certificate fetcher; the default
certificate is the head of the default list when non-nil. -/
def BuildConfigFromMetadata (env : Env) (fuel : Nat)
    (lbName envUUID selfHostUUID localServicePreference : String)
    (lbMeta : LBMetadata) : Except String (List LoadBalancerConfig) :=
  match env.fetchCertificates lbMeta.certs lbMeta.defaultCert true with
  | .error e => .error e
  | .ok defCerts =>
    let defaultCert : Option Certificate :=
      if defCerts.length > 0 then defCerts.headD none else none
    let certs : List (Option Certificate) :=
      match defaultCert with
      | some c => [some c]
      | none => []
    match env.fetchCertificates lbMeta.certs lbMeta.defaultCert false with
    | .error e => .error e
    | .ok alternateCerts =>
      let certs := certs ++ alternateCerts
      match lbMeta.portRules.foldlM
          (processPortRule env fuel envUUID selfHostUUID localServicePreference)
          ({ frontends := [], allBe := [], allEps := [] } : BuildState) with
      | .error e => .error e
      | .ok st =>
        let frontends :=
          sortBy frontendLE (st.frontends.map (fun p => materializeFrontend st.allBe p.2))
        let lbConfig : LoadBalancerConfig :=
          { name := lbName, frontendServices := frontends, certs := certs,
            defaultCert := defaultCert, stickinessPolicy := lbMeta.stickinessPolicy }
        match env.processCustomConfig lbConfig lbMeta.config with
        | .error e => .error e
        | .ok _ => .ok [lbConfig]

/-- Modelled from the spec: `IsSelectorMatch` is part of this package but its
source file is not under src/.  Spec 4.1.1: the selector is a comma-separated
list of terms, each `key=value` (equality) or `key` (presence); a service
matches when every term matches its labels; whitespace around terms is
trimmed; matching is case-sensitive. -/
def labelValue (labels : List (String × String)) (k : String) : Option String :=
  (labels.find? (fun p => p.1 == k)).map (fun p => p.2)

/-- One selector term; see `IsSelectorMatch`. -/
def termMatches (labels : List (String × String)) (term : String) : Bool :=
  match splitCh (trimStr term) '=' with
  | [k] => (labelValue labels k).isSome
  | k :: rest => labelValue labels k == some (String.intercalate "=" rest)
  | [] => false

/-- See `labelValue` and `termMatches`. -/
def IsSelectorMatch (selector : String) (labels : List (String × String)) : Bool :=
  (splitCh selector ',').all (fun term => termMatches labels term)

/-- The rules emitted by `processSelector` (rancher.go, first version) for
one matched candidate service from the local environment: one rule per
nested port rule (copying source port, protocol and weight from the selector
rule and path, hostname, target port and backend name from the nested rule),
or a single rule from the selector rule itself when the candidate has no
nested rules.  The Go struct literals mention no Region or Environment, so
those fields stay at their zero value. -/
def expandLocalService (lbRule : PortRule) (svc : Service) : List PortRule :=
  let svcName := svc.stackName ++ "/" ++ svc.name
  if svc.lbPortRules.length > 0 then
    svc.lbPortRules.map (fun rule =>
      { sourcePort := lbRule.sourcePort, protocol := lbRule.protocol,
        path := rule.path, hostname := rule.hostname, service := svcName,
        targetPort := rule.targetPort, backendName := rule.backendName,
        weight := lbRule.weight })
  else
    [{ sourcePort := lbRule.sourcePort, protocol := lbRule.protocol,
       path := lbRule.path, hostname := lbRule.hostname, service := svcName,
       targetPort := lbRule.targetPort, backendName := lbRule.backendName,
       weight := lbRule.weight }]

/-- The loop over the local services in `processSelector`: candidates whose
labels fail the selector are skipped, as are candidates with no nested rules
when the selector rule has no target port. -/
def localSelectorRules (lbRule : PortRule) : List Service → List PortRule
  | [] => []
  | svc :: rest =>
    if !(IsSelectorMatch lbRule.selector svc.labels) then
      localSelectorRules lbRule rest
    else if svc.lbPortRules.length == 0 && lbRule.targetPort == 0 then
      localSelectorRules lbRule rest
    else
      expandLocalService lbRule svc ++ localSelectorRules lbRule rest

/-- The rules emitted by `processSelector` (rancher.go, first version) for
one matched candidate from the peer-environment / cross-region fetch: as the
local case but with a qualified service link
(`region/env/stack/name` cross-region, `env/stack/name` otherwise) and with
Region and Environment copied from the selector rule. -/
def expandExternalService (regionName : String) (lbRule : PortRule) (svc : Service) :
    List PortRule :=
  let svcName :=
    if lbRule.region != "" && lbRule.region != regionName then
      lbRule.region ++ "/" ++ lbRule.environment ++ "/" ++ svc.stackName ++ "/" ++ svc.name
    else if lbRule.environment != "" then
      lbRule.environment ++ "/" ++ svc.stackName ++ "/" ++ svc.name
    else ""
  if svc.lbPortRules.length > 0 then
    svc.lbPortRules.map (fun rule =>
      { sourcePort := lbRule.sourcePort, protocol := lbRule.protocol,
        path := rule.path, hostname := rule.hostname, service := svcName,
        targetPort := rule.targetPort, backendName := rule.backendName,
        region := lbRule.region, environment := lbRule.environment,
        weight := lbRule.weight })
  else
    [{ sourcePort := lbRule.sourcePort, protocol := lbRule.protocol,
       path := lbRule.path, hostname := lbRule.hostname, service := svcName,
       targetPort := lbRule.targetPort, backendName := lbRule.backendName,
       region := lbRule.region, environment := lbRule.environment,
       weight := lbRule.weight }]

/-- The peer-environment / cross-region fetch of `processSelector`: the Go
code assigns the fetch error to `err` but never checks it, so a failed fetch
leaves the candidate slice empty. -/
def externalServices (env : Env) (regionName : String) (lbRule : PortRule) : List Service :=
  let fetched : Except String (List Service) :=
    if lbRule.region != "" then
      if lbRule.region == regionName then
        env.getServicesByEnvironment lbRule.environment
      else if lbRule.environment != "" then
        env.getServicesByRegionEnvironment lbRule.region lbRule.environment
      else .ok []
    else if lbRule.environment != "" then
      env.getServicesByEnvironment lbRule.environment
    else .ok []
  match fetched with
  | .error _ => []
  | .ok svcs => svcs

/-- The loop over the fetched external services in `processSelector`, with
the same skip conditions as the local loop. -/
def externalSelectorRules (regionName : String) (lbRule : PortRule) :
    List Service → List PortRule
  | [] => []
  | svc :: rest =>
    if !(IsSelectorMatch lbRule.selector svc.labels) then
      externalSelectorRules regionName lbRule rest
    else if svc.lbPortRules.length == 0 && lbRule.targetPort == 0 then
      externalSelectorRules regionName lbRule rest
    else
      expandExternalService regionName lbRule svc ++ externalSelectorRules regionName lbRule rest

/-- `processSelector` (rancher.go, first version): non-selector rules pass
through; each selector rule is expanded against the local services and then
against the peer-environment / cross-region services.  A failing
`GetRegionName` yields the empty region; the region is stripped of wrapping
double quotes. -/
def processSelector (env : Env) (lbMeta : LBMetadata) : Except String LBMetadata :=
  match env.getServices with
  | .error e => .error e
  | .ok svcs =>
    let regionName :=
      match env.getRegionName with
      | .ok r => trimQuotes r
      | .error _ => trimQuotes ""
    let rules := lbMeta.portRules.foldl (fun acc lbRule =>
      if lbRule.selector == "" then acc ++ [lbRule]
      else
        acc ++ localSelectorRules lbRule svcs
            ++ externalSelectorRules regionName lbRule (externalServices env regionName lbRule)) []
    .ok { lbMeta with portRules := rules }

/-- The lookup half of the `RMetaFetcher` metadata client, as a snapshot of
pure answers.  The Go client methods return a zero `metadata.Service` when
nothing matches, hence plain `Service` results here. -/
structure RMetaSnapshot where
  regionName : Except String String
  serviceByRegionEnvironment : String → String → String → String → Service
  serviceByEnvironment : String → String → String → Service
  serviceByName : String → String → Service
  containers : List Container

/-- `RMetaFetcher.GetService` (rancher.go, first version): split the link on
`/`; 4 parts resolve cross-region unless the first part equals the (quote
stripped) self region, 3 parts resolve by environment, otherwise by stack and
name. -/
def rGetService (snap : RMetaSnapshot) (link : String) : Except String Service :=
  let splitSvcName := splitCh link '/'
  match snap.regionName with
  | .error e => .error e
  | .ok regionName =>
    let regionName := trimQuotes regionName
    if splitSvcName.length == 4 then
      if splitSvcName.getD 0 "" == regionName then
        .ok (snap.serviceByEnvironment (splitSvcName.getD 1 "") (splitSvcName.getD 2 "")
          (splitSvcName.getD 3 ""))
      else
        .ok (snap.serviceByRegionEnvironment (splitSvcName.getD 0 "") (splitSvcName.getD 1 "")
          (splitSvcName.getD 2 "") (splitSvcName.getD 3 ""))
    else if splitSvcName.length == 3 then
      .ok (snap.serviceByEnvironment (splitSvcName.getD 0 "") (splitSvcName.getD 1 "")
        (splitSvcName.getD 2 ""))
    else
      .ok (snap.serviceByName (splitSvcName.getD 0 "") (splitSvcName.getD 1 ""))

/-- `RMetaFetcher.GetContainer` (rancher.go): scan the metadata client's
containers, skipping those of a different environment, and return the first
whose name matches case-insensitively; with no match the zero container is
returned (never nil, and no error). -/
def rGetContainer (cs : List Container) (envUUID containerName : String) : Container :=
  match cs.find? (fun c =>
    eqFold c.environmentUUID envUUID && eqFold c.name containerName) with
  | some c => c
  | none => {}

/-- The shutdown-relevant state of `LoadBalancerController` for `Stop`. -/
structure ControllerState where
  shutdown : Bool
  stopChClosed : Bool
  providerStopCalled : Bool
  deriving Repr, DecidableEq

/-- The state of a freshly created controller. -/
def initialControllerState : ControllerState :=
  { shutdown := false, stopChClosed := false, providerStopCalled := false }

/-- `Stop` (rancher.go): when not yet shut down, call the provider's `Stop`
(returning its error if it fails), close the stop channel and mark the
controller shut down; the function then falls through to the unconditional
`return fmt.Errorf("shutdown already in progress")`.  The input decides
whether the provider's `Stop` fails. -/
def Stop (providerStopError : Option String) (st : ControllerState) :
    ControllerState × Option String :=
  if st.shutdown == false then
    let st := { st with providerStopCalled := true }
    match providerStopError with
    | some e => (st, some e)
    | none =>
      ({ st with stopChClosed := true, shutdown := true },
       some "shutdown already in progress")
  else
    (st, some "shutdown already in progress")

namespace Part000

/-- `getContainerEndpoint` (unnamed source file with drain support):
`stopping` containers also yield an endpoint, with `Weight` set to `"0"`
(draining). -/
def getContainerEndpoint (hashIP : String → String) (c : Container) (targetPort : Int)
    (selfHostUUID localServicePreference : String) : Option (Endpoint × Bool) :=
  if eqFold c.state "running" || eqFold c.state "starting" || eqFold c.state "stopping" then
    let ep : Endpoint := { name := hashIP c.primaryIp, ip := c.primaryIp, port := targetPort }
    let ep := if eqFold c.state "stopping" then { ep with weight := "0" } else ep
    if localServicePreference != "any" && !(eqFold c.hostUUID selfHostUUID) then
      some (ep, true)
    else
      some (ep, false)
  else
    none

/-- `getRegularServiceEndpoints` (unnamed source file), identical to the
first version except for the container-endpoint state filter. -/
def splitContainerEndpoints (hashIP : String → String) (targetPort : Int)
    (selfHostUUID localServicePreference : String) :
    List Container → List Endpoint × List Endpoint
  | [] => ([], [])
  | c :: rest =>
    let acc := splitContainerEndpoints hashIP targetPort selfHostUUID localServicePreference rest
    match getContainerEndpoint hashIP c targetPort selfHostUUID localServicePreference with
    | none => acc
    | some (ep, true) => (acc.1, ep :: acc.2)
    | some (ep, false) => (ep :: acc.1, acc.2)

/-- See `Part000.splitContainerEndpoints`. -/
def getRegularServiceEndpoints (hashIP : String → String) (svc : Service) (targetPort : Int)
    (selfHostUUID localServicePreference : String) : List Endpoint :=
  let split := splitContainerEndpoints hashIP targetPort selfHostUUID localServicePreference svc.containers
  if localServicePreference == "prefer-local" && split.1.length == 0 then split.2
  else split.1

/-- `getServiceEndpoints` (unnamed source file), as the first version but
resolving regular services through the drain-aware container filter. -/
def getServiceEndpoints (env : Env) :
    Nat → Service → Int → String → String → Except String (List Endpoint)
  | 0, _, _, _, _ => .error "alias recursion limit exceeded"
  | fuel + 1, svc, targetPort, selfHostUUID, pref =>
    let eps :=
      if eqFold svc.kind "externalService" then
        .ok (getExternalServiceEndpoints env.hashIP svc targetPort)
      else if eqFold svc.kind "dnsService" then
        aliasEndpoints env.getService
          (fun s => getServiceEndpoints env fuel s targetPort selfHostUUID pref) svc.links
      else
        .ok (getRegularServiceEndpoints env.hashIP svc targetPort selfHostUUID pref)
    match eps with
    | .error e => .error e
    | .ok eps => .ok (sortBy endpointLE eps)

/-- As `fetchRuleEndpoints`, for the drain-aware variant. -/
def fetchRuleEndpoints (env : Env) (fuel : Nat) (envUUID selfHostUUID pref : String)
    (rule : PortRule) : Except String (Option (List Endpoint × Option String)) :=
  if rule.service != "" then
    match env.getService rule.service with
    | .error e => .error e
    | .ok none => .ok none
    | .ok (some service) =>
      if !(IsActiveService service) then .ok none
      else
        match getServiceEndpoints env fuel service rule.targetPort selfHostUUID pref with
        | .error e => .error e
        | .ok eps =>
          match getServiceHealthCheck service with
          | .error e => .error e
          | .ok hc => .ok (some (eps, hc))
  else
    match env.getContainer envUUID rule.container with
    | .error e => .error e
    | .ok container =>
      match getContainerEndpoint env.hashIP container rule.targetPort selfHostUUID pref with
      | none => .ok none
      | some (ep, _) =>
        match getContainerHealthcheck container with
        | .error e => .error e
        | .ok hc => .ok (some ([ep], hc))

/-- One iteration of the port-rule loop of the drain-aware
`BuildConfigFromMetadata` (unnamed source file); the registration tail is
identical to the first version (`registerRule`), including the endpoint
weight overwrite with the rule's weight. -/
def processPortRule (env : Env) (fuel : Nat) (envUUID selfHostUUID pref : String)
    (st : BuildState) (rule : PortRule) : Except String BuildState :=
  if rule.sourcePort < 1 then .ok st
  else
    let name := toString rule.sourcePort
    let frontend : FrontendAcc :=
      match lookupA st.frontends name with
      | some val => val
      | none => { name := name, port := rule.sourcePort, protocol := rule.protocol, beKeys := [] }
    match fetchRuleEndpoints env fuel envUUID selfHostUUID pref rule with
    | .error e => .error e
    | .ok none => .ok st
    | .ok (some (eps, hc)) => .ok (registerRule st rule frontend name eps hc)

/-- `BuildConfigFromMetadata` (unnamed source file with drain support); the
logic is that of the first version with the drain-aware endpoint filter. -/
def BuildConfigFromMetadata (env : Env) (fuel : Nat)
    (lbName envUUID selfHostUUID localServicePreference : String)
    (lbMeta : LBMetadata) : Except String (List LoadBalancerConfig) :=
  match env.fetchCertificates lbMeta.certs lbMeta.defaultCert true with
  | .error e => .error e
  | .ok defCerts =>
    let defaultCert : Option Certificate :=
      if defCerts.length > 0 then defCerts.headD none else none
    let certs : List (Option Certificate) :=
      match defaultCert with
      | some c => [some c]
      | none => []
    match env.fetchCertificates lbMeta.certs lbMeta.defaultCert false with
    | .error e => .error e
    | .ok alternateCerts =>
      let certs := certs ++ alternateCerts
      match lbMeta.portRules.foldlM
          (processPortRule env fuel envUUID selfHostUUID localServicePreference)
          ({ frontends := [], allBe := [], allEps := [] } : BuildState) with
      | .error e => .error e
      | .ok st =>
        let frontends :=
          sortBy frontendLE (st.frontends.map (fun p => materializeFrontend st.allBe p.2))
        let lbConfig : LoadBalancerConfig :=
          { name := lbName, frontendServices := frontends, certs := certs,
            defaultCert := defaultCert, stickinessPolicy := lbMeta.stickinessPolicy }
        match env.processCustomConfig lbConfig lbMeta.config with
        | .error e => .error e
        | .ok _ => .ok [lbConfig]

end Part000

/-- A backend's IP map is faithful: it covers the IPs of its endpoints, and
those IPs are pairwise distinct. -/
def epMapMatches (be : BackendService) (ipset : List String) : Prop :=
  (∀ e ∈ be.endpoints, e.ip ∈ ipset) ∧ (be.endpoints.map Endpoint.ip).Nodup

/-- Invariant of the port-rule loop state: every backend has a faithful IP
map, and the IP-map table has no entries for absent backends. -/
def stInv (st : BuildState) : Prop :=
  (∀ k be, lookupA st.allBe k = some be →
    ∃ ipset, lookupA st.allEps k = some ipset ∧ epMapMatches be ipset) ∧
  (∀ k, lookupA st.allBe k = none → lookupA st.allEps k = none)

/-- Decidable per-rule side condition used by the corrected claim C4: the
endpoint list the build fetches for the rule has pairwise-distinct IPs. -/
def ruleEpsNodup (env : Env) (fuel : Nat) (envUUID selfHostUUID pref : String)
    (r : PortRule) : Bool :=
  match fetchRuleEndpoints env fuel envUUID selfHostUUID pref r with
  | .ok (some (eps, _)) => decide (eps.map Endpoint.ip).Nodup
  | _ => true

/-- The empty loop state. -/
def emptyBuildState : BuildState :=
  { frontends := [], allBe := [], allEps := [] }

/-- A zero backend, used only as a `getD` default in concrete scenarios. -/
def emptyBackend : BackendService :=
  { uuid := "", host := "", path := "", port := 0, protocol := "",
    ruleComparator := "", endpoints := [], healthCheck := none, priority := 0 }

/-- A zero frontend, used only as a `headD` default in concrete scenarios. -/
def emptyFrontend : FrontendService :=
  { name := "", port := 0, protocol := "", backendServices := [] }

/-- A zero config, used only as a `headD` default in concrete scenarios. -/
def emptyLBConfig : LoadBalancerConfig :=
  { name := "", frontendServices := [], certs := [], defaultCert := none,
    stickinessPolicy := "" }

/-- A base environment for the concrete scenarios: no services, no
containers, no certificates, a provider hook that accepts everything, and
the abstract IP hash instantiated as the identity (no claim depends on the
hash value). -/
def baseEnv : Env :=
  { hashIP := fun ip => ip,
    getService := fun _ => .ok none,
    getContainer := fun _ _ => .ok {},
    getServices := .ok [],
    getRegionName := .ok "",
    getServicesByEnvironment := fun _ => .ok [],
    getServicesByRegionEnvironment := fun _ _ => .ok [],
    fetchCertificates := fun _ _ _ => .ok [],
    processCustomConfig := fun _ _ => .ok () }

/-- C1 scenario: a service whose state is `Inactive` (case differs from the
lower-case inactive list, exercising the case-insensitive comparison). -/
def c1Service : Service :=
  { name := "y", stackName := "x", state := "Inactive" }

/-- C1 scenario environment: the link `x/y` resolves to the inactive
service. -/
def c1Env : Env :=
  { baseEnv with getService := fun link =>
      if link == "x/y" then .ok (some c1Service) else .ok none }

/-- C1 scenario rule. -/
def c1Rule : PortRule :=
  { sourcePort := 7, service := "x/y", targetPort := 80 }

/-- C2 scenario (spec S1): the single running container of service `drone`. -/
def droneContainer : Container :=
  { name := "client_container", primaryIp := "172.17.0.8", state := "running",
    environmentUUID := "bar" }

/-- C2 scenario: service `drone` of stack `stackC` in environment `bar`,
labelled `foo=bar`. -/
def droneService : Service :=
  { name := "drone", stackName := "stackC", environmentUUID := "bar",
    kind := "service", labels := [("foo", "bar")], containers := [droneContainer] }

/-- C2 scenario: the metadata-client snapshot behind `rGetService` (mirrors
the metadata snapshot of the claim: environment `bar` holds exactly
`drone`). -/
def c2Snapshot : RMetaSnapshot :=
  { regionName := .ok "region1",
    serviceByRegionEnvironment := fun _ _ _ _ => {},
    serviceByEnvironment := fun env stack svc =>
      if env == "bar" && stack == "stackC" && svc == "drone" then droneService else {},
    serviceByName := fun _ _ => {},
    containers := [] }

/-- C2 scenario environment. -/
def c2Env : Env :=
  { baseEnv with
    getService := fun link => (rGetService c2Snapshot link).map some,
    getRegionName := .ok "region1",
    getServicesByEnvironment := fun env =>
      if env == "bar" then .ok [droneService] else .ok [] }

/-- C2 scenario rule (spec S1). -/
def c2Rule : PortRule :=
  { sourcePort := 45, protocol := "http", selector := "foo=bar",
    environment := "bar", targetPort := 80 }

/-- C2 scenario metadata. -/
def c2Meta : LBMetadata :=
  { portRules := [c2Rule] }

/-- C2 scenario: selector expansion followed by the build, as in
`GetLBConfigs`. -/
def c2Pipeline : Except String (List LoadBalancerConfig) :=
  match processSelector c2Env c2Meta with
  | .error e => .error e
  | .ok m => BuildConfigFromMetadata c2Env 5 "test" "" "" "any" m

/-- C3 witness scenario: an active service with one running container. -/
def c3Service : Service :=
  { name := "b", stackName := "a", kind := "service",
    containers := [{ name := "c", primaryIp := "10.0.0.5", state := "running" }] }

/-- C3 witness environment. -/
def c3Env : Env :=
  { baseEnv with getService := fun link =>
      if link == "a/b" then .ok (some c3Service) else .ok none }

/-- C3 witness rule (http, no hostname/path, no backend name). -/
def c3Rule : PortRule :=
  { sourcePort := 8, protocol := "http", service := "a/b", targetPort := 80 }

/-- C3 witness: the state after processing the rule from the empty state. -/
def c3State1 : BuildState :=
  (processPortRule c3Env 5 "" "" "any" emptyBuildState c3Rule).toOption.getD emptyBuildState

/-- C3 witness: the backend the rule created. -/
def c3Backend : BackendService :=
  (lookupA c3State1.allBe (rulePathUUID c3Rule)).getD emptyBackend

/-- C4 counterexample scenario: a service with two running containers that
share the same primary IP. -/
def c4Service : Service :=
  { name := "dup", stackName := "s", kind := "service",
    containers :=
      [{ name := "c1", primaryIp := "10.0.0.1", state := "running" },
       { name := "c2", primaryIp := "10.0.0.1", state := "running" }] }

/-- C4 counterexample environment. -/
def c4Env : Env :=
  { baseEnv with getService := fun link =>
      if link == "s/dup" then .ok (some c4Service) else .ok none }

/-- C4 counterexample rule. -/
def c4Rule : PortRule :=
  { sourcePort := 80, protocol := "http", service := "s/dup", targetPort := 8080 }

/-- C4 counterexample: the configs the build produces. -/
def c4built : List LoadBalancerConfig :=
  (BuildConfigFromMetadata c4Env 5 "lb" "" "" "any" { portRules := [c4Rule] }).toOption.getD []

/-- C4 witness scenario (spec S5): two services whose endpoint sets
intersect. -/
def c4wServiceA : Service :=
  { name := "a", stackName := "s", kind := "service",
    containers :=
      [{ name := "a1", primaryIp := "10.1.1.1", state := "running" },
       { name := "a2", primaryIp := "10.1.1.2", state := "running" }] }

/-- See `c4wServiceA`. -/
def c4wServiceB : Service :=
  { name := "b", stackName := "s", kind := "service",
    containers :=
      [{ name := "b1", primaryIp := "10.1.1.2", state := "running" },
       { name := "b2", primaryIp := "10.1.1.3", state := "running" }] }

/-- C4 witness environment. -/
def c4wEnv : Env :=
  { baseEnv with getService := fun link =>
      (if link == "s/a" then Except.ok (some c4wServiceA)
       else if link == "s/b" then Except.ok (some c4wServiceB)
       else Except.ok none) }

/-- C4 witness metadata: two rules with the same identity triple
(source port 80, hostname `foo.example`, path `/`) over the two services. -/
def c4wMeta : LBMetadata :=
  { portRules :=
      [{ sourcePort := 80, protocol := "http", hostname := "foo.example", path := "/",
         service := "s/a", targetPort := 80, weight := "1" },
       { sourcePort := 80, protocol := "http", hostname := "foo.example", path := "/",
         service := "s/b", targetPort := 80, weight := "2" }] }

/-- C4 witness: the configs the build produces. -/
def c4wCfgs : List LoadBalancerConfig :=
  (BuildConfigFromMetadata c4wEnv 5 "lb" "" "" "any" c4wMeta).toOption.getD []

/-- C7 scenario: a service whose only container is stopping. -/
def c7Service : Service :=
  { name := "drain", stackName := "s", kind := "service",
    containers := [{ name := "d1", primaryIp := "10.1.1.1", state := "stopping" }] }

/-- C7 scenario environment. -/
def c7Env : Env :=
  { baseEnv with getService := fun link =>
      if link == "s/drain" then .ok (some c7Service) else .ok none }

/-- C7 scenario rule, with a non-zero weight `"5"`. -/
def c7Rule : PortRule :=
  { sourcePort := 80, protocol := "http", service := "s/drain",
    targetPort := 8080, weight := "5" }

/-- C7 scenario: the configs the drain-aware build produces. -/
def c7built : List LoadBalancerConfig :=
  (Part000.BuildConfigFromMetadata c7Env 5 "lb" "" "" "any"
    { portRules := [c7Rule] }).toOption.getD []

/-- C8 counterexample scenario: a matched local service with one nested port
rule. -/
def c8LocalSvc : Service :=
  { name := "locsvc", stackName := "stk", labels := [("sel", "yes")],
    lbPortRules := [{ path := "/n", hostname := "hn", targetPort := 81,
                      backendName := "bn" }] }

/-- C8 counterexample environment: only the local environment has services. -/
def c8Env : Env :=
  { baseEnv with
    getServices := .ok [c8LocalSvc],
    getRegionName := .ok "region1" }

/-- C8 counterexample selector rule carrying a region and an environment. -/
def c8Rule : PortRule :=
  { sourcePort := 9, protocol := "http", selector := "sel=yes",
    region := "regionZ", environment := "envX", weight := "7" }

/-- C10 witness scenario: containers that cannot match the rule (wrong
environment or wrong name). -/
def c10Containers : List Container :=
  [{ name := "other", environmentUUID := "envA", primaryIp := "10.9.9.9", state := "running" },
   { name := "web", environmentUUID := "envB", primaryIp := "10.9.9.8", state := "running" }]

/-- C10 witness environment: the container fetch is `rGetContainer` over the
snapshot. -/
def c10Env : Env :=
  { baseEnv with getContainer := fun e n => .ok (rGetContainer c10Containers e n) }

/-- C10 witness rule: a container rule naming a container absent from the
load balancer's environment `envA`. -/
def c10Rule : PortRule :=
  { sourcePort := 6, protocol := "http", container := "web", targetPort := 80 }

theorem foldlM_skip {β : Type} (f : β → PortRule → Except String β) (rule : PortRule)
    (hskip : ∀ b, f b rule = .ok b) (pre post : List PortRule) (init : β) :
    (pre ++ rule :: post).foldlM f init = (pre ++ post).foldlM f init := by
  induction pre generalizing init with
  | nil =>
    simp only [List.nil_append, List.foldlM_cons, hskip]
    rfl
  | cons a pre ih =>
    simp only [List.cons_append, List.foldlM_cons]
    cases h : f init a with
    | error e => rfl
    | ok b => exact ih b

theorem build_congr (env : Env) (fuel : Nat) (lbName envUUID selfHostUUID pref : String)
    (m1 m2 : LBMetadata)
    (hcerts : m1.certs = m2.certs) (hdef : m1.defaultCert = m2.defaultCert)
    (hconf : m1.config = m2.config) (hstick : m1.stickinessPolicy = m2.stickinessPolicy)
    (hfold : m1.portRules.foldlM (processPortRule env fuel envUUID selfHostUUID pref)
        ({ frontends := [], allBe := [], allEps := [] } : BuildState) =
      m2.portRules.foldlM (processPortRule env fuel envUUID selfHostUUID pref)
        ({ frontends := [], allBe := [], allEps := [] } : BuildState)) :
    BuildConfigFromMetadata env fuel lbName envUUID selfHostUUID pref m1 =
    BuildConfigFromMetadata env fuel lbName envUUID selfHostUUID pref m2 := by
  unfold BuildConfigFromMetadata
  rw [hcerts, hdef, hconf, hstick, hfold]

/-- C1: for a rule with a non-empty service link whose service fetch yields a
missing or inactive service (state in the inactive list, case-insensitively),
the rule is dropped: the loop step leaves the build state unchanged and
returns no error, and the whole build over any rule list containing the rule
equals the build with the rule removed. -/
theorem c1_inactive_service_rule_dropped (env : Env) (fuel : Nat)
    (lbName envUUID selfHostUUID pref : String) (lbMeta : LBMetadata)
    (pre post : List PortRule) (rule : PortRule)
    (hsvc : (rule.service != "") = true)
    (hmiss : env.getService rule.service = .ok none ∨
      ∃ s, env.getService rule.service = .ok (some s) ∧ IsActiveService s = false) :
    (∀ st, processPortRule env fuel envUUID selfHostUUID pref st rule = .ok st) ∧
    BuildConfigFromMetadata env fuel lbName envUUID selfHostUUID pref
      { lbMeta with portRules := pre ++ rule :: post } =
    BuildConfigFromMetadata env fuel lbName envUUID selfHostUUID pref
      { lbMeta with portRules := pre ++ post } := by
  have hfetch : fetchRuleEndpoints env fuel envUUID selfHostUUID pref rule = .ok none := by
    unfold fetchRuleEndpoints
    rcases hmiss with hnone | ⟨s, hsome, hinact⟩
    · simp only [hsvc, if_true, hnone]
    · simp only [hsvc, if_true, hsome, hinact]
      rfl
  have hstep : ∀ st, processPortRule env fuel envUUID selfHostUUID pref st rule = .ok st := by
    intro st
    unfold processPortRule
    split
    · rfl
    · rw [hfetch]
  refine ⟨hstep, build_congr env fuel lbName envUUID selfHostUUID pref _ _ rfl rfl rfl rfl ?_⟩
  exact foldlM_skip _ rule hstep pre post _

theorem c1_witness_closed :
    processPortRule c1Env 5 "" "" "any" emptyBuildState c1Rule = .ok emptyBuildState ∧
    BuildConfigFromMetadata c1Env 5 "lb" "" "" "any" { portRules := [c1Rule] } =
    BuildConfigFromMetadata c1Env 5 "lb" "" "" "any" { portRules := [] } := by
  have h := c1_inactive_service_rule_dropped c1Env 5 "lb" "" "" "any"
    { portRules := [c1Rule] } [] [] c1Rule (by decide)
    (Or.inr ⟨c1Service, rfl, by decide⟩)
  exact ⟨h.1 emptyBuildState, h.2⟩

/-- C10: a container rule (empty service link) whose container name matches
nothing in the load balancer's environment: `rGetContainer` returns the
zero-valued container without error (Go returns a non-nil pointer to it), the
zero container's empty state fails the running/starting filter, the loop step
leaves the state unchanged without error, and the whole build equals the
build with the rule removed. -/
theorem c10_unmatched_container_rule_dropped (cs : List Container) (env : Env) (fuel : Nat)
    (lbName envUUID selfHostUUID pref : String) (lbMeta : LBMetadata)
    (pre post : List PortRule) (rule : PortRule)
    (hgc : env.getContainer = fun e n => Except.ok (rGetContainer cs e n))
    (hserv : rule.service = "")
    (hnomatch : ∀ c ∈ cs,
      (eqFold c.environmentUUID envUUID && eqFold c.name rule.container) = false) :
    rGetContainer cs envUUID rule.container = ({} : Container) ∧
    getContainerEndpoint env.hashIP ({} : Container) rule.targetPort selfHostUUID pref = none ∧
    (∀ st, processPortRule env fuel envUUID selfHostUUID pref st rule = .ok st) ∧
    BuildConfigFromMetadata env fuel lbName envUUID selfHostUUID pref
      { lbMeta with portRules := pre ++ rule :: post } =
    BuildConfigFromMetadata env fuel lbName envUUID selfHostUUID pref
      { lbMeta with portRules := pre ++ post } := by
  have hzero : rGetContainer cs envUUID rule.container = ({} : Container) := by
    unfold rGetContainer
    rw [List.find?_eq_none.mpr]
    intro c hc
    simp [hnomatch c hc]
  have hnone : getContainerEndpoint env.hashIP ({} : Container) rule.targetPort
      selfHostUUID pref = none := rfl
  have hfetch : fetchRuleEndpoints env fuel envUUID selfHostUUID pref rule = .ok none := by
    unfold fetchRuleEndpoints
    rw [hserv]
    simp only [bne_self_eq_false, Bool.false_eq_true, if_false, hgc, hzero, hnone]
  have hstep : ∀ st, processPortRule env fuel envUUID selfHostUUID pref st rule = .ok st := by
    intro st
    unfold processPortRule
    split
    · rfl
    · rw [hfetch]
  refine ⟨hzero, hnone, hstep, build_congr env fuel lbName envUUID selfHostUUID pref _ _
    rfl rfl rfl rfl ?_⟩
  exact foldlM_skip _ rule hstep pre post _

theorem c10_witness_closed :
    rGetContainer c10Containers "envA" "web" = ({} : Container) ∧
    getContainerEndpoint c10Env.hashIP ({} : Container) 80 "" "any" = none ∧
    processPortRule c10Env 5 "envA" "" "any" emptyBuildState c10Rule = .ok emptyBuildState ∧
    BuildConfigFromMetadata c10Env 5 "lb" "envA" "" "any" { portRules := [c10Rule] } =
    BuildConfigFromMetadata c10Env 5 "lb" "envA" "" "any" { portRules := [] } := by
  have h := c10_unmatched_container_rule_dropped c10Containers c10Env 5 "lb" "envA" "" "any"
    { portRules := [c10Rule] } [] [] c10Rule rfl rfl (by decide)
  exact ⟨h.1, h.2.1, h.2.2.1 emptyBuildState, h.2.2.2⟩

/-- C9 (code bug support): evaluating `Stop` on a fresh controller with a
succeeding provider shows that the first call performs the whole shutdown
(provider stopped, stop channel closed, shutdown flag set) and nevertheless
already returns the shutdown-in-progress error, and that a second call
changes nothing and returns the same error.  The claim's statement that only
a repeated call returns this error contradicts the first call's result. -/
theorem c9_first_stop_call_returns_error :
    (Stop none initialControllerState).1.shutdown = true ∧
    (Stop none initialControllerState).1.stopChClosed = true ∧
    (Stop none initialControllerState).1.providerStopCalled = true ∧
    (Stop none initialControllerState).2 = some "shutdown already in progress" ∧
    Stop none (Stop none initialControllerState).1 =
      ((Stop none initialControllerState).1, some "shutdown already in progress") :=
  ⟨rfl, rfl, rfl, rfl, rfl⟩

/-- C5: hostname/path normalization.  For a protocol that is not http, https
or sni (compared case-insensitively, as the code does), hostname and path are
cleared and the comparator is `eq`; for an HTTP-ish protocol a hostname of
byte length greater than 2 starting with `*` is stripped of it with
comparator `end`, else one ending with `*` is stripped with comparator `beg`,
else (including every hostname of byte length at most 2) the hostname is
unchanged and the comparator is `eq`. -/
theorem c5_hostname_normalization (rule : PortRule) :
    (isHTTPish rule.protocol = false →
      normalizeHostPath rule = ("", "", EqRuleComparator)) ∧
    (isHTTPish rule.protocol = true →
      (rule.hostname.utf8ByteSize > 2 → hasPrefixCh rule.hostname '*' = true →
        normalizeHostPath rule = (rule.hostname.drop 1, rule.path, EndRuleComparator)) ∧
      (rule.hostname.utf8ByteSize > 2 → hasPrefixCh rule.hostname '*' = false →
        hasSuffixCh rule.hostname '*' = true →
        normalizeHostPath rule = (rule.hostname.dropRight 1, rule.path, BegRuleComparator)) ∧
      (rule.hostname.utf8ByteSize > 2 → hasPrefixCh rule.hostname '*' = false →
        hasSuffixCh rule.hostname '*' = false →
        normalizeHostPath rule = (rule.hostname, rule.path, EqRuleComparator)) ∧
      (¬ rule.hostname.utf8ByteSize > 2 →
        normalizeHostPath rule = (rule.hostname, rule.path, EqRuleComparator))) := by
  constructor
  · intro hproto
    unfold normalizeHostPath
    simp only [hproto, Bool.false_eq_true, Bool.not_false, if_false, if_true]
    split
    · exact absurd (by assumption) (by decide)
    · rfl
  · intro hproto
    refine ⟨?_, ?_, ?_, ?_⟩
    · intro hlen hpre
      unfold normalizeHostPath
      simp [hproto, hlen, hpre]
    · intro hlen hpre hsuf
      unfold normalizeHostPath
      simp [hproto, hlen, hpre, hsuf]
    · intro hlen hpre hsuf
      unfold normalizeHostPath
      simp [hproto, hlen, hpre, hsuf]
    · intro hlen
      unfold normalizeHostPath
      simp [hproto, hlen]

theorem c5_witness_closed :
    normalizeHostPath { protocol := "http", hostname := "*foo", path := "/p" } =
      ("foo", "/p", EndRuleComparator) ∧
    normalizeHostPath { protocol := "HTTPS", hostname := "bar*", path := "/q" } =
      ("bar", "/q", BegRuleComparator) ∧
    normalizeHostPath { protocol := "tcp", hostname := "foo.example", path := "/r" } =
      ("", "", EqRuleComparator) ∧
    normalizeHostPath { protocol := "http", hostname := "a*", path := "" } =
      ("a*", "", EqRuleComparator) := by
  refine ⟨?_, ?_, ?_, ?_⟩
  · exact ((c5_hostname_normalization _).2 (by decide)).1 (by decide) (by decide)
  · exact ((c5_hostname_normalization _).2 (by decide)).2.1 (by decide) (by decide) (by decide)
  · exact (c5_hostname_normalization _).1 (by decide)
  · exact ((c5_hostname_normalization _).2 (by decide)).2.2.2 (by decide)

theorem getCE_any (hashIP : String → String) (c : Container) (tp : Int) (self : String) :
    getContainerEndpoint hashIP c tp self "any" =
      (if eqFold c.state "running" || eqFold c.state "starting" then
        some ({ name := hashIP c.primaryIp, ip := c.primaryIp, port := tp }, false)
      else none) := by
  unfold getContainerEndpoint
  split
  · simp
  · rfl

theorem getCE_not_any (hashIP : String → String) (c : Container) (tp : Int)
    (self pref : String) (hp : (pref != "any") = true) :
    getContainerEndpoint hashIP c tp self pref =
      (if eqFold c.state "running" || eqFold c.state "starting" then
        some ({ name := hashIP c.primaryIp, ip := c.primaryIp, port := tp },
          !(eqFold c.hostUUID self))
      else none) := by
  unfold getContainerEndpoint
  split
  · simp only [hp, Bool.true_and]
    by_cases hl : eqFold c.hostUUID self
    · simp [hl]
    · simp [hl]
  · rfl

theorem splitCE_any (hashIP : String → String) (tp : Int) (self : String)
    (cs : List Container) :
    splitContainerEndpoints hashIP tp self "any" cs =
      (cs.filterMap (fun c =>
        if eqFold c.state "running" || eqFold c.state "starting" then
          some { name := hashIP c.primaryIp, ip := c.primaryIp, port := tp }
        else none), []) := by
  induction cs with
  | nil => rfl
  | cons c rest ih =>
    simp only [splitContainerEndpoints, ih, getCE_any, List.filterMap_cons]
    by_cases h : (eqFold c.state "running" || eqFold c.state "starting") = true
    · simp [h]
    · simp [h]

theorem splitCE_not_any (hashIP : String → String) (tp : Int) (self pref : String)
    (hp : (pref != "any") = true) (cs : List Container) :
    splitContainerEndpoints hashIP tp self pref cs =
      (cs.filterMap (fun c =>
        if (eqFold c.state "running" || eqFold c.state "starting") && eqFold c.hostUUID self then
          some { name := hashIP c.primaryIp, ip := c.primaryIp, port := tp }
        else none),
       cs.filterMap (fun c =>
        if (eqFold c.state "running" || eqFold c.state "starting") && !(eqFold c.hostUUID self) then
          some { name := hashIP c.primaryIp, ip := c.primaryIp, port := tp }
        else none)) := by
  induction cs with
  | nil => rfl
  | cons c rest ih =>
    simp only [splitContainerEndpoints, ih, getCE_not_any hashIP c tp self pref hp,
      List.filterMap_cons]
    by_cases h : (eqFold c.state "running" || eqFold c.state "starting") = true
    · by_cases hl : eqFold c.hostUUID self
      · simp [h, hl]
      · simp [h, hl]
    · simp [h]

/-- C6: locality handling of regular-service endpoint resolution.  Under
`any` every eligible (running/starting) container yields a primary endpoint;
under `only-local` exactly the eligible containers whose host UUID matches
the self host (case-insensitively) yield endpoints, foreign ones are dropped;
under `prefer-local` the non-local endpoints are returned exactly when the
local (primary) endpoint list is empty, otherwise the local ones are. -/
theorem c6_locality_preferences (hashIP : String → String) (svc : Service) (tp : Int)
    (self : String) :
    getRegularServiceEndpoints hashIP svc tp self "any" =
      svc.containers.filterMap (fun c =>
        if eqFold c.state "running" || eqFold c.state "starting" then
          some { name := hashIP c.primaryIp, ip := c.primaryIp, port := tp }
        else none) ∧
    getRegularServiceEndpoints hashIP svc tp self "only-local" =
      svc.containers.filterMap (fun c =>
        if (eqFold c.state "running" || eqFold c.state "starting") && eqFold c.hostUUID self then
          some { name := hashIP c.primaryIp, ip := c.primaryIp, port := tp }
        else none) ∧
    getRegularServiceEndpoints hashIP svc tp self "prefer-local" =
      (let primaries := svc.containers.filterMap (fun c =>
          if (eqFold c.state "running" || eqFold c.state "starting") && eqFold c.hostUUID self then
            some { name := hashIP c.primaryIp, ip := c.primaryIp, port := tp }
          else none)
       let nonLocal := svc.containers.filterMap (fun c =>
          if (eqFold c.state "running" || eqFold c.state "starting") && !(eqFold c.hostUUID self) then
            some { name := hashIP c.primaryIp, ip := c.primaryIp, port := tp }
          else none)
       if primaries.length == 0 then nonLocal else primaries) := by
  refine ⟨?_, ?_, ?_⟩
  · unfold getRegularServiceEndpoints
    rw [splitCE_any]
    simp
  · unfold getRegularServiceEndpoints
    rw [splitCE_not_any hashIP tp self "only-local" (by decide)]
    simp
  · unfold getRegularServiceEndpoints
    rw [splitCE_not_any hashIP tp self "prefer-local" (by decide)]
    simp

theorem lookupA_append {α : Type} (l l' : List (String × α)) (k : String) :
    lookupA (l ++ l') k =
      (match lookupA l k with
       | some v => some v
       | none => lookupA l' k) := by
  induction l with
  | nil => rfl
  | cons p rest ih =>
    simp only [List.cons_append, lookupA]
    by_cases h : (p.1 == k) = true
    · simp [h]
    · simp [h, ih]

theorem lookupA_setA_self {α : Type} (l : List (String × α)) (k : String) (v : α) :
    lookupA (setA l k v) k = some v := by
  induction l with
  | nil => simp [setA, lookupA]
  | cons p rest ih =>
    simp only [setA]
    by_cases h : (p.1 == k) = true
    · simp [h, lookupA]
    · simp [h, lookupA, ih]

theorem lookupA_setA_ne {α : Type} (l : List (String × α)) (k k' : String) (v : α)
    (h : k' ≠ k) : lookupA (setA l k v) k' = lookupA l k' := by
  have hne : (k == k') = false := by
    simp only [beq_eq_false_iff_ne]
    exact fun he => h he.symm
  induction l with
  | nil => simp [setA, lookupA, hne]
  | cons p rest ih =>
    simp only [setA]
    by_cases hp : (p.1 == k) = true
    · have hp1 : p.1 = k := by simpa [beq_iff_eq] using hp
      simp [lookupA, hp1, hne]
    · simp only [hp, Bool.false_eq_true, if_false, lookupA]
      by_cases hk' : (p.1 == k') = true
      · simp [hk']
      · simp [hk', ih]

/-- C3: every newly created backend (its path UUID was absent from `allBe`
before the loop step ran) gets `UUID = rule.BackendName` when that is
non-empty, and otherwise the identity string
`SourcePort_Hostname'_Path'` with every maximal run of non-alphanumeric
characters replaced by a single underscore. -/
theorem c3_new_backend_uuid (env : Env) (fuel : Nat) (envUUID selfHostUUID pref : String)
    (st st' : BuildState) (rule : PortRule) (k : String) (be : BackendService)
    (h : processPortRule env fuel envUUID selfHostUUID pref st rule = .ok st')
    (hnew : lookupA st.allBe k = none) (hk : lookupA st'.allBe k = some be) :
    k = rulePathUUID rule ∧
    be.uuid = (if rule.backendName == "" then replaceNonAlnumRuns (rulePathUUID rule)
               else rule.backendName) := by
  unfold processPortRule at h
  split at h
  · cases h
    rw [hnew] at hk
    exact absurd hk (by simp)
  · split at h
    · exact absurd h (by simp)
    · cases h
      rw [hnew] at hk
      exact absurd hk (by simp)
    · cases h
      simp only [registerRule] at hk
      cases hbe : lookupA st.allBe (rulePathUUID rule) with
      | some backend =>
        rw [hbe] at hk
        simp only at hk
        by_cases hkp : k = rulePathUUID rule
        · rw [hkp] at hnew
          rw [hnew] at hbe
          exact absurd hbe (by simp)
        · rw [lookupA_setA_ne _ _ _ _ hkp] at hk
          rw [hnew] at hk
          exact absurd hk (by simp)
      | none =>
        rw [hbe] at hk
        simp only at hk
        rw [lookupA_append] at hk
        rw [hnew] at hk
        simp only [lookupA] at hk
        by_cases hkp : (rulePathUUID rule == k) = true
        · have hke : rulePathUUID rule = k := by simpa [beq_iff_eq] using hkp
          rw [hkp] at hk
          simp only [if_true] at hk
          cases hk
          exact ⟨hke.symm, rfl⟩
        · simp only [hkp, if_false, Bool.false_eq_true] at hk
          exact absurd hk (by simp)

theorem c3_witness_closed :
    c3Backend.uuid = (if c3Rule.backendName == "" then
      replaceNonAlnumRuns (rulePathUUID c3Rule) else c3Rule.backendName) :=
  (c3_new_backend_uuid c3Env 5 "" "" "any" emptyBuildState c3State1 c3Rule
    (rulePathUUID c3Rule) c3Backend rfl rfl rfl).2

/-- C2 (counterexample): in the S1 scenario the backend's UUID is `"45_"`
(the path UUID `45__` after collapsing the run of two underscores), not
`"45__"` as the claim states. -/
theorem c2_scenario_uuid_counterexample :
    (c2Pipeline.map (fun cfgs => cfgs.map (fun cfg =>
      cfg.frontendServices.map (fun fe => fe.backendServices.map (fun be => be.uuid))))) =
      .ok [[["45_"]]] ∧ ("45_" : String) ≠ "45__" :=
  ⟨rfl, by decide⟩

/-- C2 (amended): the S1 scenario — selector expansion of the single rule
followed by the build — produces exactly one frontend on port 45 holding
exactly one backend whose UUID is `"45_"` and whose endpoint list is exactly
one endpoint with IP 172.17.0.8 and port 80. -/
theorem c2_scenario_s1_amended :
    c2Pipeline.map (fun cfgs => cfgs.map (fun cfg =>
      cfg.frontendServices.map (fun fe =>
        (fe.port, fe.backendServices.map (fun be =>
          (be.uuid, be.endpoints.map (fun e => (e.ip, e.port)))))))) =
      .ok [[(45, [("45_", [("172.17.0.8", 80)])])]] :=
  rfl

/-- C7 (counterexample): in the drain-aware variant a stopping container's
endpoint is resolved with weight `"0"`, but the build overwrites every
endpoint weight of a new backend with the rule's weight, so the emitted
backend carries the rule's weight `"5"`, not `"0"`. -/
theorem c7_drain_weight_counterexample :
    Part000.getServiceEndpoints c7Env 5 c7Service 8080 "" "any" =
      .ok [{ name := "10.1.1.1", ip := "10.1.1.1", port := 8080, isCname := false,
             weight := "0" }] ∧
    (c7built.map (fun cfg => cfg.frontendServices.map (fun fe =>
      fe.backendServices.map (fun be => be.endpoints.map (fun e => e.weight))))) =
      [[[["5"]]]] ∧ ("5" : String) ≠ "0" :=
  ⟨rfl, rfl, by decide⟩

/-- C7 (amended): in the drain-aware variant, a stopping container yields an
endpoint with weight `"0"` in the resolved endpoint list (shown here under
the default `any` preference), containers in none of the states running,
starting, stopping yield no endpoint, and every endpoint of a newly created
backend in the emitted config has its weight overwritten with the
contributing rule's weight (so it is `"0"` only when the rule's weight
is `"0"`). -/
theorem c7_stopping_container_amended (hashIP : String → String) (c : Container)
    (tp : Int) (self : String) (st : BuildState) (rule : PortRule)
    (frontend : FrontendAcc) (name : String) (eps : List Endpoint) (hc : Option String) :
    (eqFold c.state "stopping" = true →
      Part000.getContainerEndpoint hashIP c tp self "any" =
        some ({ name := hashIP c.primaryIp, ip := c.primaryIp, port := tp,
                isCname := false, weight := "0" }, false)) ∧
    ((eqFold c.state "running" || eqFold c.state "starting" || eqFold c.state "stopping")
        = false →
      ∀ pref, Part000.getContainerEndpoint hashIP c tp self pref = none) ∧
    (lookupA st.allBe (rulePathUUID rule) = none →
      ∀ be, lookupA (registerRule st rule frontend name eps hc).allBe
          (rulePathUUID rule) = some be →
        ∀ e ∈ be.endpoints, e.weight = rule.weight) := by
  refine ⟨?_, ?_, ?_⟩
  · intro hstop
    unfold Part000.getContainerEndpoint
    simp [hstop]
  · intro hnotelig pref
    unfold Part000.getContainerEndpoint
    simp [hnotelig]
  · intro hnone be hbe e he
    simp only [registerRule, hnone] at hbe
    rw [lookupA_append, hnone] at hbe
    simp only [lookupA, beq_self_eq_true, if_true] at hbe
    cases hbe
    simp only [List.mem_map] at he
    obtain ⟨ep, _, hep⟩ := he
    rw [← hep]

theorem c7_witness_closed :
    Part000.getContainerEndpoint (fun ip => ip)
      { name := "d1", primaryIp := "10.1.1.1", state := "stopping" } 8080 "" "any" =
      some ({ name := "10.1.1.1", ip := "10.1.1.1", port := 8080, isCname := false,
              weight := "0" }, false) ∧
    Part000.getContainerEndpoint (fun ip => ip)
      { name := "d2", primaryIp := "10.1.1.2", state := "stopped" } 8080 "" "any" = none ∧
    ({ name := "10.1.1.1", ip := "10.1.1.1", port := 8080, isCname := false,
       weight := "5" } : Endpoint).weight = "5" := by
  refine ⟨?_, ?_, ?_⟩
  · exact (c7_stopping_container_amended (fun ip => ip)
      { name := "d1", primaryIp := "10.1.1.1", state := "stopping" } 8080 ""
      emptyBuildState c7Rule { name := "80", port := 80, protocol := "http", beKeys := [] }
      "80" [] none).1 (by decide)
  · exact (c7_stopping_container_amended (fun ip => ip)
      { name := "d2", primaryIp := "10.1.1.2", state := "stopped" } 8080 ""
      emptyBuildState c7Rule { name := "80", port := 80, protocol := "http", beKeys := [] }
      "80" [] none).2.1 (by decide) "any"
  · exact (c7_stopping_container_amended (fun ip => ip)
      { name := "d1", primaryIp := "10.1.1.1", state := "stopping" } 8080 ""
      emptyBuildState c7Rule { name := "80", port := 80, protocol := "http", beKeys := [] }
      "80" [{ name := "10.1.1.1", ip := "10.1.1.1", port := 8080 }] (some "")).2.2 rfl
      { uuid := "80_", host := "", path := "", port := 8080, protocol := "http",
        ruleComparator := "eq",
        endpoints := [{ name := "10.1.1.1", ip := "10.1.1.1", port := 8080,
                        isCname := false, weight := "5" }],
        healthCheck := some "", priority := 0 } rfl
      { name := "10.1.1.1", ip := "10.1.1.1", port := 8080, isCname := false,
        weight := "5" } (by simp)

/-- C8 (counterexample): a selector rule carrying Region `regionZ` and
Environment `envX` matched against a local-environment candidate emits a rule
whose Region and Environment are empty, not copies of the selector rule's. -/
theorem c8_local_fields_counterexample :
    (processSelector c8Env { portRules := [c8Rule] }).map (fun m =>
      m.portRules.map (fun r => (r.service, r.region, r.environment, r.weight))) =
      .ok [("stk/locsvc", "", "", "7")] ∧
    c8Rule.environment = "envX" ∧ c8Rule.region = "regionZ" ∧
    ("" : String) ≠ "envX" :=
  ⟨rfl, rfl, rfl, by decide⟩

/-- C8 (amended): for a matched candidate with a non-empty nested rule list,
the expansion emits one rule per nested rule copying SourcePort, Protocol and
Weight from the selector rule and Path, Hostname, TargetPort and BackendName
from the nested rule; candidates from the peer-environment / cross-region
fetch additionally copy Region and Environment from the selector rule, while
local-environment candidates leave Region and Environment empty. -/
theorem c8_selector_expansion_amended (lbRule : PortRule) (svc : Service)
    (rest : List Service) (regionName : String)
    (hmatch : IsSelectorMatch lbRule.selector svc.labels = true)
    (hnested : svc.lbPortRules.length > 0) :
    localSelectorRules lbRule (svc :: rest) =
      svc.lbPortRules.map (fun nested =>
        { sourcePort := lbRule.sourcePort, protocol := lbRule.protocol,
          path := nested.path, hostname := nested.hostname,
          service := svc.stackName ++ "/" ++ svc.name,
          targetPort := nested.targetPort, backendName := nested.backendName,
          weight := lbRule.weight, region := "", environment := "" }) ++
        localSelectorRules lbRule rest ∧
    externalSelectorRules regionName lbRule (svc :: rest) =
      svc.lbPortRules.map (fun nested =>
        { sourcePort := lbRule.sourcePort, protocol := lbRule.protocol,
          path := nested.path, hostname := nested.hostname,
          service :=
            (if lbRule.region != "" && lbRule.region != regionName then
              lbRule.region ++ "/" ++ lbRule.environment ++ "/" ++ svc.stackName ++ "/" ++ svc.name
            else if lbRule.environment != "" then
              lbRule.environment ++ "/" ++ svc.stackName ++ "/" ++ svc.name
            else ""),
          targetPort := nested.targetPort, backendName := nested.backendName,
          weight := lbRule.weight, region := lbRule.region,
          environment := lbRule.environment }) ++
        externalSelectorRules regionName lbRule rest := by
  have hlen : (svc.lbPortRules.length == 0) = false := by
    simp only [beq_eq_false_iff_ne]
    omega
  constructor
  · conv_lhs => rw [localSelectorRules]
    simp only [hmatch, Bool.not_true, Bool.false_eq_true, if_false, hlen, Bool.false_and]
    unfold expandLocalService
    simp only [if_pos hnested]
  · conv_lhs => rw [externalSelectorRules]
    simp only [hmatch, Bool.not_true, Bool.false_eq_true, if_false, hlen, Bool.false_and]
    unfold expandExternalService
    simp only [if_pos hnested]

theorem c8_witness_closed :
    localSelectorRules c8Rule [c8LocalSvc] =
      [{ sourcePort := 9, protocol := "http", path := "/n", hostname := "hn",
         service := "stk/locsvc", targetPort := 81, backendName := "bn",
         weight := "7", region := "", environment := "" }] ∧
    externalSelectorRules "region1" c8Rule [c8LocalSvc] =
      [{ sourcePort := 9, protocol := "http", path := "/n", hostname := "hn",
         service := "regionZ/envX/stk/locsvc", targetPort := 81, backendName := "bn",
         weight := "7", region := "regionZ", environment := "envX" }] := by
  have h := c8_selector_expansion_amended c8Rule c8LocalSvc [] "region1"
    (by decide) (by decide)
  exact ⟨h.1, h.2⟩

theorem merge_mono (w : String) (eps : List Endpoint) (be : BackendService)
    (epMap : List String) (x : String) (hx : x ∈ epMap) :
    x ∈ (mergeEndpoints w eps be epMap).2 := by
  induction eps generalizing be epMap with
  | nil => exact hx
  | cons ep rest ih =>
    simp only [mergeEndpoints]
    by_cases h : epMap.contains ep.ip = true
    · rw [if_pos h]
      exact ih _ _ hx
    · rw [if_neg h]
      exact ih _ _ (List.mem_append_left _ hx)

theorem merge_complete (w : String) (eps : List Endpoint) (be : BackendService)
    (epMap : List String) (ep : Endpoint) (hep : ep ∈ eps) :
    ep.ip ∈ (mergeEndpoints w eps be epMap).2 := by
  induction eps generalizing be epMap with
  | nil => cases hep
  | cons e rest ih =>
    simp only [mergeEndpoints]
    by_cases h : epMap.contains e.ip = true
    · rw [if_pos h]
      rcases List.mem_cons.mp hep with he | he
      · subst he
        exact merge_mono _ _ _ _ _ (by simpa using h)
      · exact ih _ _ he
    · rw [if_neg h]
      rcases List.mem_cons.mp hep with he | he
      · subst he
        exact merge_mono _ _ _ _ _ (List.mem_append_right _ (by simp))
      · exact ih _ _ he

theorem merge_endpoint_origin (w : String) (eps : List Endpoint) (be : BackendService)
    (epMap : List String) (e : Endpoint)
    (he : e ∈ (mergeEndpoints w eps be epMap).1.endpoints) :
    e ∈ be.endpoints ∨ (e.weight = w ∧ e.ip ∉ epMap ∧ e.ip ∈ eps.map Endpoint.ip) := by
  induction eps generalizing be epMap with
  | nil => exact Or.inl he
  | cons ep rest ih =>
    simp only [mergeEndpoints] at he
    by_cases h : epMap.contains ep.ip = true
    · rw [if_pos h] at he
      rcases ih _ _ he with h1 | ⟨hw, hnm, hm⟩
      · exact Or.inl h1
      · exact Or.inr ⟨hw, hnm, by simp only [List.map_cons, List.mem_cons]; exact Or.inr hm⟩
    · rw [if_neg h] at he
      rcases ih _ _ he with h1 | ⟨hw, hnm, hm⟩
      · rcases List.mem_append.mp h1 with h2 | h2
        · exact Or.inl h2
        · have he2 : e = { ep with weight := w } := by simpa using h2
          subst he2
          refine Or.inr ⟨rfl, ?_, by simp⟩
          intro hmem
          exact h (by simpa using hmem)
      · refine Or.inr ⟨hw, fun hx => hnm (List.mem_append_left _ hx),
          by simp only [List.map_cons, List.mem_cons]; exact Or.inr hm⟩

theorem merge_matches (w : String) (eps : List Endpoint) (be : BackendService)
    (epMap : List String) (h : epMapMatches be epMap) :
    epMapMatches (mergeEndpoints w eps be epMap).1 (mergeEndpoints w eps be epMap).2 := by
  induction eps generalizing be epMap with
  | nil => exact h
  | cons ep rest ih =>
    simp only [mergeEndpoints]
    by_cases hc : epMap.contains ep.ip = true
    · rw [if_pos hc]
      exact ih _ _ h
    · rw [if_neg hc]
      apply ih
      obtain ⟨hcov, hnd⟩ := h
      constructor
      · intro e he
        rcases List.mem_append.mp he with h1 | h1
        · exact List.mem_append_left _ (hcov e h1)
        · have he2 : e = { ep with weight := w } := by simpa using h1
          subst he2
          simp
      · rw [List.map_append, List.nodup_append]
        refine ⟨hnd, by simp, ?_⟩
        intro x hx hx2
        have hxe : x = ep.ip := by simpa using hx2
        subst hxe
        obtain ⟨e0, he0, hip⟩ := List.mem_map.mp hx
        exact hc (by simpa using hip ▸ hcov e0 he0)

theorem registerRule_merge_eq (st : BuildState) (rule : PortRule) (frontend : FrontendAcc)
    (name : String) (eps : List Endpoint) (hc : Option String) (backend : BackendService)
    (hbe : lookupA st.allBe (rulePathUUID rule) = some backend) :
    registerRule st rule frontend name eps hc =
      { frontends := setA st.frontends name frontend,
        allBe := setA st.allBe (rulePathUUID rule)
          (mergeEndpoints rule.weight eps backend
            ((lookupA st.allEps (rulePathUUID rule)).getD [])).1,
        allEps := setA st.allEps (rulePathUUID rule)
          (mergeEndpoints rule.weight eps backend
            ((lookupA st.allEps (rulePathUUID rule)).getD [])).2 } := by
  simp only [registerRule, hbe]

theorem registerRule_new_eq (st : BuildState) (rule : PortRule) (frontend : FrontendAcc)
    (name : String) (eps : List Endpoint) (hc : Option String)
    (hbe : lookupA st.allBe (rulePathUUID rule) = none) :
    registerRule st rule frontend name eps hc =
      { frontends := setA st.frontends name
          { frontend with beKeys := frontend.beKeys ++ [rulePathUUID rule] },
        allBe := st.allBe ++ [(rulePathUUID rule,
          { uuid := if rule.backendName == "" then replaceNonAlnumRuns (rulePathUUID rule)
                    else rule.backendName,
            host := (normalizeHostPath rule).1, path := (normalizeHostPath rule).2.1,
            port := rule.targetPort, protocol := rule.protocol,
            ruleComparator := (normalizeHostPath rule).2.2,
            endpoints := eps.map (fun ep => { ep with weight := rule.weight }),
            healthCheck := hc, priority := rule.priority })],
        allEps := st.allEps ++ [(rulePathUUID rule, eps.map (fun ep => ep.ip))] } := by
  simp only [registerRule, hbe]

theorem registerRule_inv (st : BuildState) (rule : PortRule) (frontend : FrontendAcc)
    (name : String) (eps : List Endpoint) (hc : Option String)
    (hinv : stInv st) (hnodup : (eps.map Endpoint.ip).Nodup) :
    stInv (registerRule st rule frontend name eps hc) := by
  obtain ⟨hmain, hdom⟩ := hinv
  cases hbe : lookupA st.allBe (rulePathUUID rule) with
  | some backend =>
    rw [registerRule_merge_eq st rule frontend name eps hc backend hbe]
    obtain ⟨ipset, hips, hm⟩ := hmain _ _ hbe
    constructor
    · intro k be hk
      by_cases hkp : k = rulePathUUID rule
      · subst hkp
        rw [lookupA_setA_self] at hk
        cases hk
        refine ⟨_, lookupA_setA_self _ _ _, ?_⟩
        rw [hips]
        simp only [Option.getD_some]
        exact merge_matches _ _ _ _ hm
      · rw [lookupA_setA_ne _ _ _ _ hkp] at hk
        obtain ⟨ipset', hips', hm'⟩ := hmain k be hk
        exact ⟨ipset', by rw [lookupA_setA_ne _ _ _ _ hkp]; exact hips', hm'⟩
    · intro k hk
      by_cases hkp : k = rulePathUUID rule
      · subst hkp
        rw [lookupA_setA_self] at hk
        exact absurd hk (by simp)
      · rw [lookupA_setA_ne _ _ _ _ hkp] at hk
        rw [lookupA_setA_ne _ _ _ _ hkp]
        exact hdom k hk
  | none =>
    rw [registerRule_new_eq st rule frontend name eps hc hbe]
    constructor
    · intro k be hk
      rw [lookupA_append] at hk
      cases h1 : lookupA st.allBe k with
      | some be0 =>
        rw [h1] at hk
        cases hk
        obtain ⟨ipset, hips, hm⟩ := hmain k _ h1
        refine ⟨ipset, ?_, hm⟩
        rw [lookupA_append, hips]
      | none =>
        rw [h1] at hk
        simp only [lookupA] at hk
        by_cases hpk : (rulePathUUID rule == k) = true
        · rw [if_pos hpk] at hk
          cases hk
          have hke : rulePathUUID rule = k := by simpa [beq_iff_eq] using hpk
          refine ⟨eps.map (fun ep => ep.ip), ?_, ?_, ?_⟩
          · rw [lookupA_append, hdom k h1]
            simp only [lookupA, hpk, if_true]
          · intro e he
            obtain ⟨ep, hep, rfl⟩ := List.mem_map.mp he
            simp only [List.mem_map]
            exact ⟨ep, hep, rfl⟩
          · have : (List.map Endpoint.ip
                (eps.map (fun ep => ({ ep with weight := rule.weight } : Endpoint)))) =
                eps.map Endpoint.ip := by
              rw [List.map_map]
              rfl
            rw [this]
            exact hnodup
        · rw [if_neg hpk] at hk
          exact absurd hk (by simp)
    · intro k hk
      rw [lookupA_append] at hk
      cases h1 : lookupA st.allBe k with
      | some be0 => rw [h1] at hk; exact absurd hk (by simp)
      | none =>
        rw [h1] at hk
        simp only [lookupA] at hk
        rw [lookupA_append, hdom k h1]
        simp only [lookupA]
        by_cases hpk : (rulePathUUID rule == k) = true
        · rw [if_pos hpk] at hk
          exact absurd hk (by simp)
        · rw [if_neg hpk]

theorem processPortRule_inv (env : Env) (fuel : Nat) (envUUID selfHostUUID pref : String)
    (st st' : BuildState) (rule : PortRule)
    (h : processPortRule env fuel envUUID selfHostUUID pref st rule = .ok st')
    (hinv : stInv st)
    (hnd : ruleEpsNodup env fuel envUUID selfHostUUID pref rule = true) :
    stInv st' := by
  unfold processPortRule at h
  split at h
  · cases h
    exact hinv
  · split at h
    · exact absurd h (by simp)
    · cases h
      exact hinv
    · cases h
      rename_i eps hc heq
      apply registerRule_inv _ _ _ _ _ _ hinv
      unfold ruleEpsNodup at hnd
      rw [heq] at hnd
      exact of_decide_eq_true hnd

theorem foldlM_inv (f : BuildState → PortRule → Except String BuildState)
    (P : BuildState → Prop) (l : List PortRule) (init final : BuildState)
    (hstep : ∀ b r b', r ∈ l → P b → f b r = .ok b' → P b')
    (hinit : P init) (h : l.foldlM f init = .ok final) : P final := by
  induction l generalizing init with
  | nil =>
    simp only [List.foldlM_nil] at h
    cases h
    exact hinit
  | cons a l ih =>
    simp only [List.foldlM_cons] at h
    cases ha : f init a with
    | error e =>
      rw [ha] at h
      exact absurd h (by simp [Bind.bind, Except.bind])
    | ok b =>
      rw [ha] at h
      exact ih b (fun b0 r b1 hr => hstep b0 r b1 (List.mem_cons_of_mem _ hr))
        (hstep init a b (List.mem_cons_self _ _) hinit ha) h

theorem mem_insertBy {α : Type} (le : α → α → Bool) (x a : α) (l : List α) :
    a ∈ insertBy le x l ↔ a = x ∨ a ∈ l := by
  induction l with
  | nil => simp [insertBy]
  | cons y ys ih =>
    simp only [insertBy]
    by_cases h : le x y = true
    · rw [if_pos h]
      simp [List.mem_cons]
    · rw [if_neg h]
      simp only [List.mem_cons, ih]
      tauto

theorem mem_sortBy {α : Type} (le : α → α → Bool) (a : α) (l : List α) :
    a ∈ sortBy le l ↔ a ∈ l := by
  induction l with
  | nil => simp [sortBy]
  | cons x xs ih =>
    simp only [sortBy, mem_insertBy, ih, List.mem_cons]

/-- C4 (counterexample): a single rule whose service resolves to two running
containers with the same primary IP produces a backend whose endpoint IP
list contains that IP twice — the new-backend branch stores the fetched
endpoint list verbatim, deduplicating only across later rules. -/
theorem c4_duplicate_ip_counterexample :
    ¬ (∀ cfg ∈ c4built, ∀ fe ∈ cfg.frontendServices, ∀ be ∈ fe.backendServices,
      (be.endpoints.map Endpoint.ip).Nodup) := by
  decide

/-- C4 (amended): provided every rule's fetched endpoint list has pairwise
distinct IPs, every backend of the built config has pairwise distinct
endpoint IPs; moreover the merge of a later rule into an existing backend
only appends endpoints whose IP was not yet in the backend's IP map, giving
them that rule's weight (existing endpoints are untouched), and records every
incoming IP in the map. -/
theorem c4_backend_ip_uniqueness_amended (env : Env) (fuel : Nat)
    (lbName envUUID selfHostUUID pref : String) (lbMeta : LBMetadata)
    (cfgs : List LoadBalancerConfig)
    (hnodup : ∀ r ∈ lbMeta.portRules,
      ruleEpsNodup env fuel envUUID selfHostUUID pref r = true)
    (hok : BuildConfigFromMetadata env fuel lbName envUUID selfHostUUID pref lbMeta
      = .ok cfgs) :
    (∀ cfg ∈ cfgs, ∀ fe ∈ cfg.frontendServices, ∀ be ∈ fe.backendServices,
      (be.endpoints.map Endpoint.ip).Nodup) ∧
    (∀ w eps be epMap e, e ∈ (mergeEndpoints w eps be epMap).1.endpoints →
      e ∈ be.endpoints ∨ (e.weight = w ∧ e.ip ∉ epMap ∧ e.ip ∈ eps.map Endpoint.ip)) ∧
    (∀ w eps be epMap ep, ep ∈ eps → ep.ip ∈ (mergeEndpoints w eps be epMap).2) := by
  refine ⟨?_, fun w eps be epMap e he => merge_endpoint_origin w eps be epMap e he,
    fun w eps be epMap ep hep => merge_complete w eps be epMap ep hep⟩
  simp only [BuildConfigFromMetadata] at hok
  split at hok
  · exact absurd hok (by simp)
  · split at hok
    · exact absurd hok (by simp)
    · split at hok
      · exact absurd hok (by simp)
      · rename_i st hfold
        split at hok
        · exact absurd hok (by simp)
        · cases hok
          intro cfg hcfg fe hfe be hbe
          have hcfg' := List.mem_singleton.mp hcfg
          subst hcfg'
          simp only [mem_sortBy] at hfe
          obtain ⟨p, hp, rfl⟩ := List.mem_map.mp hfe
          simp only [materializeFrontend, mem_sortBy] at hbe
          obtain ⟨key, hkey, hlook⟩ := List.mem_filterMap.mp hbe
          have hinv : stInv st := by
            refine foldlM_inv _ stInv lbMeta.portRules _ st ?_ ?_ hfold
            · intro b r b' hr hb hstep
              exact processPortRule_inv env fuel envUUID selfHostUUID pref b b' r hstep hb
                (hnodup r hr)
            · constructor
              · intro k be0 hk
                simp [lookupA] at hk
              · intro k _
                rfl
          obtain ⟨ipset, _, _, hnd⟩ := hinv.1 key be hlook
          exact hnd

theorem c4_witness_closed :
    ((((c4wCfgs.headD emptyLBConfig).frontendServices.headD
        emptyFrontend).backendServices.headD emptyBackend).endpoints.map
      Endpoint.ip).Nodup := by
  have h := (c4_backend_ip_uniqueness_amended c4wEnv 5 "lb" "" "" "any" c4wMeta c4wCfgs
    (by decide) rfl).1
  exact h (c4wCfgs.headD emptyLBConfig) (by decide)
    ((c4wCfgs.headD emptyLBConfig).frontendServices.headD emptyFrontend) (by decide)
    (((c4wCfgs.headD emptyLBConfig).frontendServices.headD
      emptyFrontend).backendServices.headD emptyBackend) (by decide)
